import Mathlib

/-!
Shallow embedding of the z-module chat protocol core, translated from
`src/network/message.py`, `src/network/server.py`, `src/network/client.py`,
`src/network/server_action.py` and `src/utility/z_utility.py`.

Conventions of the embedding:
* Python `bytes` values are `List Nat` with every element below 256.
* Python `str` values are `List Nat` of Unicode code points (`len` on a
  Python string counts code points, which is why the builder's length
  arithmetic and its UTF-8 payload can disagree).
* Fallible Python code is embedded as `Except PyError _`; each uncaught
  Python exception class that the translated code can raise is one
  constructor of `PyError`.
* The wall-clock timestamp written by `struct.pack('d', time.time())` is
  abstracted as an arbitrary 8-byte argument `timeBytes`; the process-wide
  `Builder._message_counter` singleton is passed and returned explicitly.
-/

namespace ZModule

/-- Python exception classes raised by the embedded code, plus
`incompleteHeader`: a framing-error kind that the project documentation
names for short reads but that no code path in `src` ever produces (it is
included so that statements about it can be written at all). -/
inductive PyError where
  | valueError
  | structError
  | unicodeDecodeError
  | unicodeEncodeError
  | overflowError
  | keyError
  | typeError
  | attributeError
  | incompleteHeader
  deriving DecidableEq, Repr

/-- `BUFFER_MIN` (message.py line 12): frame granularity for padding. -/
def BUFFER_MIN : Nat := 4

/-- `MSG_COUNTER_MASK` (message.py line 17). -/
def MSG_COUNTER_MASK : Nat := 0xFFFF

/-- `Message.HEADER_LEN` (message.py line 53): 1 type + 2 length + 8 time
+ 2 id = 13 bytes. -/
def HEADER_LEN : Nat := 13

/-- Byte codes of the `MessageType` enum (message.py lines 19-45): codes
are assigned sequentially from `0x80` (`REQ_CREATE_USER`) to `0x96`
(`SVR_CLIENT_SAY`). Only the codes used by the claims get names. -/
def REQ_CREATE_USER : Nat := 0x80
def REQ_SAY : Nat := 0x84
def REQ_WHISPER : Nat := 0x85
def SUC_GENERIC : Nat := 0x8A
def SUC_USER_CREATE : Nat := 0x8E
def ERR_GENERIC : Nat := 0x8F
def ERR_MALFORMED_DATA : Nat := 0x91
def ERR_USER_EXISTS : Nat := 0x92
def ERR_USER_OFFLINE : Nat := 0x93
def SVR_CLIENT_WHISPER : Nat := 0x95

/-- `MessageType(b)` succeeds exactly when `b` is one of the 23 enum byte
codes `0x80 .. 0x96`. -/
def isValidTypeByte (b : Nat) : Bool := 0x80 ≤ b && b ≤ 0x96

/-- UTF-8 encoding of one code point (the code points reachable from
Python strings are below `0x110000`; larger inputs fall into the 4-byte
branch but are rejected by `pyEncodeUtf8` before this is used). -/
def utf8EncodeChar (c : Nat) : List Nat :=
  if c < 0x80 then [c]
  else if c < 0x800 then [0xC0 + c / 64, 0x80 + c % 64]
  else if c < 0x10000 then [0xE0 + c / 4096, 0x80 + c / 64 % 64, 0x80 + c % 64]
  else [0xF0 + c / 262144, 0x80 + c / 4096 % 64, 0x80 + c / 64 % 64, 0x80 + c % 64]

/-- Python `str.encode('utf-8')`: concatenates the UTF-8 bytes of every
code point, raising `UnicodeEncodeError` on surrogates (or on code points
beyond U+10FFFF, which a Python `str` cannot hold anyway). -/
def pyEncodeUtf8 : List Nat → Except PyError (List Nat)
  | [] => .ok []
  | c :: rest =>
    if 0xD800 ≤ c ∧ c ≤ 0xDFFF then .error .unicodeEncodeError
    else if 0x110000 ≤ c then .error .unicodeEncodeError
    else
      match pyEncodeUtf8 rest with
      | .ok bs => .ok (utf8EncodeChar c ++ bs)
      | .error e => .error e

/-- Strict UTF-8 decoding as a byte-level state machine: `need` is the
number of continuation bytes still expected for the current sequence,
`acc` the partially accumulated code point and `lo` the smallest code
point the sequence's length is allowed to produce (the overlong check).
Lead bytes `0x80..0xC1` (stray continuations and overlong 2-byte leads)
and `0xF5..` are invalid; a completed sequence is rejected when overlong,
a surrogate, or beyond U+10FFFF — exactly the inputs Python's strict
`bytes.decode('utf-8')` rejects. -/
def utf8DecodeSM : List Nat → Nat → Nat → Nat → Option (List Nat)
  | [], need, _, _ => if need = 0 then some [] else none
  | b :: rest, 0, _, _ =>
    if b < 0x80 then Option.map (fun l => b :: l) (utf8DecodeSM rest 0 0 0)
    else if b < 0xC2 then none
    else if b < 0xE0 then utf8DecodeSM rest 1 (b - 0xC0) 0x80
    else if b < 0xF0 then utf8DecodeSM rest 2 (b - 0xE0) 0x800
    else if b < 0xF5 then utf8DecodeSM rest 3 (b - 0xF0) 0x10000
    else none
  | b :: rest, need + 1, acc, lo =>
    if 0x80 ≤ b ∧ b < 0xC0 then
      if need = 0 then
        if acc * 64 + (b - 0x80) < lo ∨
            (0xD800 ≤ acc * 64 + (b - 0x80) ∧ acc * 64 + (b - 0x80) ≤ 0xDFFF) ∨
            0x110000 ≤ acc * 64 + (b - 0x80) then none
        else Option.map (fun l => (acc * 64 + (b - 0x80)) :: l) (utf8DecodeSM rest 0 0 0)
      else utf8DecodeSM rest need (acc * 64 + (b - 0x80)) lo
    else none

/-- Python `bytes.decode('utf-8')` (strict); `none` stands for
`UnicodeDecodeError`. -/
def utf8Decode (s : List Nat) : Option (List Nat) := utf8DecodeSM s 0 0 0

/-- Python `int.from_bytes(bs, 'big')`: defined for every length,
including the empty byte string (which gives 0). -/
def natFromBytesBE (bs : List Nat) : Nat := bs.foldl (fun acc b => acc * 256 + b) 0

/-- Python `n.to_bytes(2, byteorder='big', unsigned)`; only applied after
the caller has ruled out `n ≥ 65536` (`OverflowError`). -/
def toBytes2BE (n : Nat) : List Nat := [n / 256, n % 256]

/-- The masked post-increment of the process-wide sequence counter
performed by each `Builder._build_message` call (message.py line 388):
`(counter + 1) & MSG_COUNTER_MASK`. -/
def nextCounter (c : Nat) : Nat := Nat.land (c + 1) MSG_COUNTER_MASK

/-- The `total_length` accumulation loop of `Builder._build_message`
(message.py lines 366-373): starts at `HEADER_LEN` and adds
`len(arg) + 1` for each argument whose Python length (code-point count)
is at least 1 — zero-length arguments are skipped *here*, but not in the
payload loop below. -/
def unpaddedLength (args : List (List Nat)) : Nat :=
  args.foldl (fun acc a => if a.length < 1 then acc else acc + a.length + 1) HEADER_LEN

/-- `padding = BUFFER_MIN - (total_length % BUFFER_MIN)` (line 377):
between 1 and 4 bytes, never 0. -/
def paddingOf (args : List (List Nat)) : Nat :=
  BUFFER_MIN - unpaddedLength args % BUFFER_MIN

/-- The declared `total_length` written into the header (line 378). -/
def totalLength (args : List (List Nat)) : Nat :=
  unpaddedLength args + paddingOf args

/-- The payload loop of `Builder._build_message` (lines 391-393): for
*every* argument — including zero-length ones — append its UTF-8 bytes
followed by one null terminator. -/
def encodeArgs : List (List Nat) → Except PyError (List Nat)
  | [] => .ok []
  | a :: rest =>
    match pyEncodeUtf8 a with
    | .error e => .error e
    | .ok ea =>
      match encodeArgs rest with
      | .error e => .error e
      | .ok er => .ok (ea ++ (0 :: er))

/-- `Builder._build_message` (message.py lines 353-400). The singleton
counter is passed in and the updated counter returned; `timeBytes` stands
for the 8 bytes of `struct.pack('d', time.time())`. `to_bytes(2, 'big')`
raises `OverflowError` when the declared length or the counter does not
fit 16 bits (the counter stays below 65536 in the running program, since
it starts at 0 and is masked after each call). Note the source asymmetry:
`total_length` counts code points and skips empty arguments, while the
payload emits UTF-8 bytes of every argument plus a null each. -/
def build_message (messageType : Nat) (args : List (List Nat)) (counter : Nat)
    (timeBytes : List Nat) : Except PyError (List Nat × Nat) :=
  let total := totalLength args
  if 65536 ≤ total then .error .overflowError
  else if 65536 ≤ counter then .error .overflowError
  else
    match encodeArgs args with
    | .error e => .error e
    | .ok payload =>
      .ok (messageType ::
            (toBytes2BE total ++ (timeBytes ++ (toBytes2BE counter ++
              (payload ++ List.replicate (paddingOf args) 0)))),
           nextCounter counter)

/-- The `Message` object built by `Builder.parse_message`: the source
stores the final remaining-byte countdown (not the declared length) in
the length slot, keeps the two sequence-id bytes raw (they are never
converted back to an integer), and sets `is_malformed` exactly when the
countdown did not end at zero. The two wall-clock times are out of scope. -/
structure Message where
  type : Nat
  length : Int
  messageId : List Nat
  fields : List (List Nat)
  malformed : Bool
  deriving DecidableEq, Repr

/-- The field-decoding loop of `Builder.parse_message` (message.py lines
439-448): walk the post-header bytes, decrementing the declared-length
countdown once per byte; a null byte closes the current run, which is
UTF-8-decoded and appended as a field only when non-empty; a trailing run
with no closing null is discarded with the loop's final state. -/
def parseLoop : List Nat → List (List Nat) → List Nat → Int →
    Except PyError (List (List Nat) × List Nat × Int)
  | [], fields, string, bytesLeft => .ok (fields, string, bytesLeft)
  | b :: rest, fields, string, bytesLeft =>
    if b = 0 then
      if 0 < string.length then
        match utf8Decode string with
        | some s => parseLoop rest (fields ++ [s]) [] (bytesLeft - 1)
        | none => .error .unicodeDecodeError
      else parseLoop rest fields string (bytesLeft - 1)
    else parseLoop rest fields (string ++ [b]) (bytesLeft - 1)

/-- `Builder.parse_message` (message.py lines 402-458).
`MessageType(data[:1])` raises `ValueError` when the first byte is
missing or is not a defined enum code; `struct.unpack('d', data[:8])`
raises `struct.error` when fewer than 8 timestamp bytes remain. There is
no incomplete-header check of any kind: short inputs surface as these
exceptions, or — with at least 11 bytes — parse into a `Message`. -/
def parse_message (data : List Nat) : Except PyError Message :=
  match data with
  | [] => .error .valueError
  | tb :: rest1 =>
    if isValidTypeByte tb then
      let messageLen := natFromBytesBE (rest1.take 2)
      let rest2 := rest1.drop 2
      if (rest2.take 8).length = 8 then
        let rest3 := rest2.drop 8
        let messageId := rest3.take 2
        let rest4 := rest3.drop 2
        match parseLoop rest4 [] [] ((messageLen : Int) - (HEADER_LEN : Int)) with
        | .ok (fields, _, bytesLeft) =>
          .ok { type := tb, length := bytesLeft, messageId := messageId,
                fields := fields, malformed := decide (bytesLeft ≠ 0) }
        | .error e => .error e
      else .error .structError
    else .error .valueError

/-- Encode then decode, for stating the round-trip law. -/
def roundTrip (messageType : Nat) (args : List (List Nat)) (counter : Nat)
    (timeBytes : List Nat) : Except PyError Message :=
  match build_message messageType args counter timeBytes with
  | .ok (frame, _) => parse_message frame
  | .error e => .error e

/-- Counter value after `k` builds starting from the initial singleton
state `Builder._message_counter = 0` (message.py line 184); the id
stamped into the k-th frame is the value *before* that call's masked
increment, hence `nthCounter k` for the (k+1)-st call. -/
def nthCounter : Nat → Nat
  | 0 => 0
  | k + 1 => nextCounter (nthCounter k)

/-- The two sequence-id bytes of a frame (header offsets 11-12). -/
def seqIdBytes (frame : List Nat) : List Nat := (frame.drop 11).take 2

/-- A Python value as the message handlers see it: either a `str` or the
generator object returned by calling `Message.get_next_field`. -/
inductive PyVal where
  | str (s : List Nat)
  | gen (fields : List (List Nat))
  deriving DecidableEq, Repr

/-- `Message.get_next_field` (message.py lines 125-140) is a *generator
function*: `message.get_next_field()` builds and returns a generator
object immediately and raises nothing — in particular it never raises the
`IndexError` its docstring advertises, no matter how few fields the
message has. -/
def get_next_field (m : Message) : PyVal := .gen m.fields

/-- The `enforce_parameter_types` decorator's check of one argument
against a `str` annotation (validation.py lines 84-90): any non-`str`
value — a generator object included — raises `TypeError` before the
decorated function body runs. -/
def enforceStr (v : PyVal) : Except PyError (List Nat) :=
  match v with
  | .str s => .ok s
  | .gen _ => .error .typeError

/-- `HASH_LENGTH` (server_action.py line 13). -/
def HASH_LENGTH : Nat := 64

/-- `ServerActionManager.create_user` (server_action.py lines 21-44),
its two SQL-store collaborators abstracted as the `accountExists`
predicate and the `addUserOk` insert result; returns the message-type
code of the response frame it builds. The function is decorated with
`enforce_parameter_types`, so both arguments are checked to be `str`
before the body runs. -/
def create_user (accountExists : List Nat → Bool) (addUserOk : Bool)
    (userName passwordHash : PyVal) : Except PyError Nat :=
  match enforceStr userName, enforceStr passwordHash with
  | .ok user, .ok pswd =>
    if accountExists user then .ok ERR_USER_EXISTS
    else if pswd.length ≠ HASH_LENGTH then .ok ERR_MALFORMED_DATA
    else if addUserOk then .ok SUC_USER_CREATE
    else .ok ERR_GENERIC
  | .error e, _ => .error e
  | _, .error e => .error e

/-- One observable response of a server handler. -/
inductive ServerAction where
  | sendToRequester (messageType : Nat)
  | sendToTarget (target : List Nat) (messageType : Nat)
  deriving DecidableEq, Repr

/-- `Server._req_user_create` (server.py lines 297-305): the two
`message.get_next_field()` calls return generator objects without
raising, so the `except IndexError` branch — the one that would answer
with a malformed-data error — is dead code; the generators are then
passed straight into `create_user`. -/
def req_user_create (accountExists : List Nat → Bool) (addUserOk : Bool)
    (message : Message) : Except PyError (List ServerAction) :=
  let user : PyVal := get_next_field message
  let pswd : PyVal := get_next_field message
  match create_user accountExists addUserOk user pswd with
  | .ok resp => .ok [.sendToRequester resp]
  | .error e => .error e

/-- Python `self._conns[key]` on the registry, whose keys are display-name
strings: a `str` key hits iff it is present; a generator object compares
equal to no string key, so it always misses; a miss raises `KeyError`. -/
def pyDictIndex (keys : List (List Nat)) (v : PyVal) : Option (List Nat) :=
  match v with
  | .str s => if keys.contains s then some s else none
  | .gen _ => none

/-- `Server._req_whisper` (server.py lines 354-375) together with
`ServerActionManager.whisper` (server_action.py lines 179-192): the two
`get_next_field()` calls return generator objects; `self._conns[user]`
therefore raises `KeyError` — and even with a proper string key an absent
target raises `KeyError` — which the `except socket.error` clause cannot
catch, so the user-offline response is never built. -/
def req_whisper (conns : List (List Nat)) (message : Message) :
    Except PyError (List ServerAction) :=
  let user : PyVal := get_next_field message
  let _whisper : PyVal := get_next_field message
  match pyDictIndex conns user with
  | none => .error .keyError
  | some target =>
    .ok [.sendToTarget target SVR_CLIENT_WHISPER, .sendToRequester SUC_GENERIC]

/-- One iteration of `Client._process_message_queue` (client.py lines
83-200) on a popped message, returning the message-type codes of the
frames the client sends back to the server: a malformed message is
skipped with a bare `continue` — nothing is sent and no field is read;
every other message immediately evaluates `m.id`, an attribute the
`Message` class does not define, raising `AttributeError`. -/
def client_process_message (m : Message) : Except PyError (List Nat) :=
  if m.malformed then .ok []
  else .error .attributeError

/-- `change_dict_key` (z_utility.py lines 26-47), on a Python dict
modeled as an insertion-ordered association list with (as in any Python
dict) pairwise-distinct keys: if the new key is already present, report
failure and change nothing; otherwise read the old key's value
(`KeyError` if absent), delete that entry and insert the new key at the
end. -/
def change_dict_key {K V : Type} [DecidableEq K] (oldKey newKey : K)
    (d : List (K × V)) : Except PyError (Bool × List (K × V)) :=
  if newKey ∈ d.map Prod.fst then .ok (false, d)
  else
    match (d.find? (fun p => decide (p.1 = oldKey))).map Prod.snd with
    | none => .error .keyError
    | some item =>
      .ok (true, d.filter (fun p => decide (p.1 ≠ oldKey)) ++ [(newKey, item)])

/-- Dictionary lookup, for stating what `change_dict_key` does to every
key. -/
def dictLookup {K V : Type} [DecidableEq K] (k : K) (d : List (K × V)) : Option V :=
  (d.find? (fun p => decide (p.1 = k))).map Prod.snd

/-- The payload `encodeArgs` produces when every argument is pure ASCII:
each argument's own bytes followed by one null terminator. -/
def payloadBytes (args : List (List Nat)) : List Nat :=
  args.foldr (fun a acc => a ++ 0 :: acc) []

/-! ## Supporting lemmas -/

theorem nextCounter_eq_mod (c : Nat) : nextCounter c = (c + 1) % 65536 := by
  have h := Nat.and_pow_two_sub_one_eq_mod (c + 1) 16
  norm_num at h
  simpa [nextCounter, MSG_COUNTER_MASK] using h

theorem nthCounter_eq_mod (k : Nat) : nthCounter k = k % 65536 := by
  induction k with
  | zero => rfl
  | succ k ih =>
    rw [nthCounter, nextCounter_eq_mod, ih]
    omega

/-- Reduction of `build_message` on the small fixed request used to state
the sequence-counter claim. -/
theorem build_small_frame (c : Nat) (hc : c < 65536) :
    build_message REQ_SAY [[104, 105]] c (List.replicate 8 0) =
      .ok (132 :: ([0, 20] ++ (List.replicate 8 0 ++ (toBytes2BE c ++
            ([104, 105, 0] ++ [0, 0, 0, 0])))), nextCounter c) := by
  have h1 : ¬ (65536 ≤ totalLength [[104, 105]]) := by decide
  have h2 : ¬ (65536 ≤ c) := by omega
  simp only [build_message, if_neg h1, if_neg h2]
  rfl

theorem find?_filter_of_imp {α : Type} (l : List α) (p q : α → Bool)
    (h : ∀ x, p x = true → q x = true) : (l.filter q).find? p = l.find? p := by
  induction l with
  | nil => rfl
  | cons a l ih =>
    by_cases hq : q a = true
    · rw [List.filter_cons_of_pos hq]
      by_cases hp : p a = true <;> simp [List.find?, hp, ih]
    · have hp : p a = false := by
        cases hpa : p a
        · rfl
        · exact absurd (h a hpa) hq
      rw [List.filter_cons_of_neg (by simp [hq])]
      simp [List.find?, hp, ih]

theorem pyEncodeUtf8_ascii (s : List Nat) (h : ∀ c ∈ s, c < 128) :
    pyEncodeUtf8 s = .ok s := by
  induction s with
  | nil => rfl
  | cons c rest ih =>
    have hc : c < 128 := h c (by simp)
    have h1 : ¬ (0xD800 ≤ c ∧ c ≤ 0xDFFF) := by omega
    have h2 : ¬ (0x110000 ≤ c) := by omega
    rw [pyEncodeUtf8, if_neg h1, if_neg h2,
        ih (fun x hx => h x (List.mem_cons_of_mem c hx))]
    simp [utf8EncodeChar, hc]

theorem encodeArgs_ascii (args : List (List Nat))
    (h : ∀ f ∈ args, ∀ c ∈ f, c < 128) :
    encodeArgs args = .ok (payloadBytes args) := by
  induction args with
  | nil => rfl
  | cons a rest ih =>
    rw [encodeArgs, pyEncodeUtf8_ascii a (h a (by simp)),
        ih (fun f hf => h f (List.mem_cons_of_mem a hf))]
    rfl

theorem payloadBytes_length (args : List (List Nat)) (n : Nat)
    (h : ∀ f ∈ args, f ≠ []) :
    args.foldl (fun acc a => if a.length < 1 then acc else acc + a.length + 1) n
      = n + (payloadBytes args).length := by
  induction args generalizing n with
  | nil => simp [payloadBytes]
  | cons a rest ih =>
    have ha : a ≠ [] := h a (by simp)
    have hl : ¬ (a.length < 1) := by
      have := List.length_pos.mpr ha
      omega
    rw [List.foldl_cons, if_neg hl,
        ih _ (fun f hf => h f (List.mem_cons_of_mem a hf))]
    simp [payloadBytes, List.length_append]
    omega

theorem unpaddedLength_eq (args : List (List Nat)) (h : ∀ f ∈ args, f ≠ []) :
    unpaddedLength args = HEADER_LEN + (payloadBytes args).length :=
  payloadBytes_length args HEADER_LEN h

theorem utf8DecodeSM_ascii (s : List Nat) (h : ∀ c ∈ s, c < 128) :
    utf8DecodeSM s 0 0 0 = some s := by
  induction s with
  | nil => rfl
  | cons c rest ih =>
    have hc : c < 128 := h c (by simp)
    rw [utf8DecodeSM, if_pos hc, ih (fun x hx => h x (List.mem_cons_of_mem c hx))]
    rfl

theorem utf8Decode_ascii (s : List Nat) (h : ∀ c ∈ s, c < 128) :
    utf8Decode s = some s := utf8DecodeSM_ascii s h

theorem map_cons_ne_nil {x : Option (List Nat)} {c : Nat} {cs : List Nat}
    (h : Option.map (fun l => c :: l) x = some cs) : cs ≠ [] := by
  cases x with
  | none => simp at h
  | some l =>
    simp at h
    simp [← h]

theorem utf8DecodeSM_cont_ne_nil (s : List Nat) :
    ∀ (need acc lo : Nat) (cs : List Nat),
    utf8DecodeSM s (need + 1) acc lo = some cs → cs ≠ [] := by
  induction s with
  | nil =>
    intro need acc lo cs h
    rw [utf8DecodeSM] at h
    simp at h
  | cons b rest ih =>
    intro need acc lo cs h
    rw [utf8DecodeSM] at h
    split_ifs at h with h1 h2 h3
    all_goals
      first
      | exact map_cons_ne_nil h
      | (obtain ⟨m, rfl⟩ := Nat.exists_eq_succ_of_ne_zero h2
         exact ih m _ _ cs h)

theorem utf8Decode_ne_nil (s cs : List Nat) (h : utf8Decode s = some cs)
    (hs : s ≠ []) : cs ≠ [] := by
  match s with
  | [] => exact absurd rfl hs
  | b :: rest =>
    have h' : utf8DecodeSM (b :: rest) 0 0 0 = some cs := h
    rw [utf8DecodeSM] at h'
    split_ifs at h' with h1 h2 h3 h4 h5
    all_goals
      first
      | exact map_cons_ne_nil h'
      | exact utf8DecodeSM_cont_ne_nil rest 0 _ _ cs h'
      | exact utf8DecodeSM_cont_ne_nil rest 1 _ _ cs h'
      | exact utf8DecodeSM_cont_ne_nil rest 2 _ _ cs h'

theorem parseLoop_nonzero_run (f : List Nat) :
    ∀ (rest : List Nat) (fl : List (List Nat)) (s : List Nat) (bl : Int),
    (∀ c ∈ f, c ≠ 0) →
    parseLoop (f ++ rest) fl s bl = parseLoop rest fl (s ++ f) (bl - f.length) := by
  induction f with
  | nil =>
    intro rest fl s bl _
    simp only [List.nil_append, List.append_nil, List.length_nil,
      Nat.cast_zero, sub_zero]
  | cons c f ih =>
    intro rest fl s bl hf
    have hc : c ≠ 0 := hf c (by simp)
    rw [List.cons_append, parseLoop, if_neg hc,
        ih rest fl (s ++ [c]) (bl - 1) (fun x hx => hf x (List.mem_cons_of_mem c hx))]
    have e1 : (s ++ [c]) ++ f = s ++ c :: f := by simp
    have e2 : bl - 1 - (f.length : Int) = bl - ((c :: f).length : Int) := by
      simp only [List.length_cons]
      push_cast
      ring
    rw [e1, e2]

theorem parseLoop_zeros (p : Nat) :
    ∀ (fl : List (List Nat)) (bl : Int),
    parseLoop (List.replicate p 0) fl [] bl = .ok (fl, [], bl - p) := by
  induction p with
  | zero =>
    intro fl bl
    simp [parseLoop]
  | succ p ih =>
    intro fl bl
    rw [List.replicate_succ, parseLoop, if_pos rfl]
    have h0 : ¬ (0 < ([] : List Nat).length) := by simp
    rw [if_neg h0, ih fl (bl - 1)]
    have harith : bl - 1 - (p : Int) = bl - ((p + 1 : Nat) : Int) := by
      push_cast
      ring
    rw [harith]

theorem parseLoop_fields (args : List (List Nat)) :
    ∀ (fl : List (List Nat)) (bl : Int) (p : Nat),
    (∀ f ∈ args, f ≠ [] ∧ ∀ c ∈ f, 0 < c ∧ c < 128) →
    parseLoop (payloadBytes args ++ List.replicate p 0) fl [] bl =
      .ok (fl ++ args, [], bl - (payloadBytes args).length - p) := by
  induction args with
  | nil =>
    intro fl bl p _
    simp [payloadBytes, parseLoop_zeros p fl bl]
  | cons a rest ih =>
    intro fl bl p h
    obtain ⟨ha, hac⟩ := h a (by simp)
    have hstep : payloadBytes (a :: rest) ++ List.replicate p 0 =
        a ++ (0 :: (payloadBytes rest ++ List.replicate p 0)) := by
      simp [payloadBytes]
    rw [hstep, parseLoop_nonzero_run a _ fl [] bl
      (fun c hc => by have := (hac c hc).1; omega)]
    rw [List.nil_append, parseLoop, if_pos rfl,
        if_pos (List.length_pos.mpr ha),
        utf8Decode_ascii a (fun c hc => (hac c hc).2)]
    show parseLoop (payloadBytes rest ++ List.replicate p 0) (fl ++ [a]) []
        (bl - a.length - 1) = _
    rw [ih (fl ++ [a]) (bl - a.length - 1) p
      (fun f hf => h f (List.mem_cons_of_mem a hf))]
    have e1 : (fl ++ [a]) ++ rest = fl ++ a :: rest := by simp
    have e2 : bl - (a.length : Int) - 1 - ((payloadBytes rest).length : Int) - (p : Int) =
        bl - ((payloadBytes (a :: rest)).length : Int) - (p : Int) := by
      simp only [payloadBytes, List.foldr_cons, List.length_append, List.length_cons]
      push_cast
      ring
    rw [e1, e2]

theorem parseLoop_fields_ne_nil (data : List Nat) :
    ∀ (fl : List (List Nat)) (s : List Nat) (bl : Int)
      (res : List (List Nat) × List Nat × Int),
    parseLoop data fl s bl = .ok res → (∀ f ∈ fl, f ≠ []) →
    ∀ f ∈ res.1, f ≠ [] := by
  induction data with
  | nil =>
    intro fl s bl res h hfl
    simp only [parseLoop, Except.ok.injEq] at h
    rw [← h]
    exact hfl
  | cons b rest ih =>
    intro fl s bl res h hfl
    rw [parseLoop] at h
    by_cases hb : b = 0
    · rw [if_pos hb] at h
      by_cases hs : 0 < s.length
      · rw [if_pos hs] at h
        cases hd : utf8Decode s with
        | none => rw [hd] at h; simp at h
        | some ds =>
          rw [hd] at h
          refine ih (fl ++ [ds]) [] (bl - 1) res h ?_
          intro f hf
          rcases List.mem_append.mp hf with hf1 | hf2
          · exact hfl f hf1
          · have hfd : f = ds := by simpa using hf2
            rw [hfd]
            exact utf8Decode_ne_nil s ds hd
              (fun he => by rw [he] at hs; simp at hs)
      · rw [if_neg hs] at h
        exact ih fl s (bl - 1) res h hfl
    · rw [if_neg hb] at h
      exact ih fl (s ++ [b]) (bl - 1) res h hfl

theorem natFromBytesBE_toBytes2BE (n : Nat) :
    natFromBytesBE (toBytes2BE n) = n := by
  simp [natFromBytesBE, toBytes2BE]
  omega

theorem parse_message_structured (tb : Nat) (lenB timeB idB payload : List Nat)
    (ht : isValidTypeByte tb = true) (h2 : lenB.length = 2) (h8 : timeB.length = 8)
    (hid : idB.length = 2) :
    parse_message (tb :: (lenB ++ (timeB ++ (idB ++ payload)))) =
      match parseLoop payload [] []
          ((natFromBytesBE lenB : Int) - (HEADER_LEN : Int)) with
      | .ok (fields, _, bytesLeft) =>
        .ok { type := tb, length := bytesLeft, messageId := idB,
              fields := fields, malformed := decide (bytesLeft ≠ 0) }
      | .error e => .error e := by
  have htake2 : (lenB ++ (timeB ++ (idB ++ payload))).take 2 = lenB := List.take_left' h2
  have hdrop2 : (lenB ++ (timeB ++ (idB ++ payload))).drop 2 = timeB ++ (idB ++ payload) :=
    List.drop_left' h2
  have htake8 : (timeB ++ (idB ++ payload)).take 8 = timeB := List.take_left' h8
  have hdrop8 : (timeB ++ (idB ++ payload)).drop 8 = idB ++ payload := List.drop_left' h8
  have htakeid : (idB ++ payload).take 2 = idB := List.take_left' hid
  have hdropid : (idB ++ payload).drop 2 = payload := List.drop_left' hid
  simp only [parse_message, ht, if_true, htake2, hdrop2, htake8, hdrop8,
    htakeid, hdropid, h8, if_pos]

/-! ## Claim theorems -/

/-- C2 (code evaluation at the failing input): building a `REQ_SAY` frame
whose single field is the empty string. The declared `total_length` in
header bytes 1-2 is 16 — the empty field was skipped by the length loop —
yet the produced frame is 17 bytes long, with a lone null terminator
emitted for the empty field at offset 13. The claim (and spec §3) say the
empty field is omitted entirely and the byte count matches the declared
length; the payload loop of `_build_message` contradicts that. -/
theorem claim2_empty_field_lone_null :
    build_message REQ_SAY [[]] 0 (List.replicate 8 0) =
      .ok ([132, 0, 16, 0, 0, 0, 0, 0, 0, 0, 0, 0, 0, 0, 0, 0, 0], 1) ∧
    ([132, 0, 16, 0, 0, 0, 0, 0, 0, 0, 0, 0, 0, 0, 0, 0, 0] : List Nat).length = 17 ∧
    natFromBytesBE (([132, 0, 16, 0, 0, 0, 0, 0, 0, 0, 0, 0, 0, 0, 0, 0, 0] :
        List Nat).drop 1 |>.take 2) = 16 := by
  refine ⟨rfl, by decide, by decide⟩

/-- C4 (counterexample): an 11-byte input — shorter than the 13-byte
header — on which `parse_message` does *not* fail with `IncompleteHeader`
(no code path produces that error); it returns a `Message` object. -/
theorem claim4_cex_short_input_parses :
    ([128, 0, 13, 0, 0, 0, 0, 0, 0, 0, 0] : List Nat).length < 13 ∧
    parse_message [128, 0, 13, 0, 0, 0, 0, 0, 0, 0, 0] =
      .ok ⟨128, 0, [], [], false⟩ := by
  exact ⟨by decide, rfl⟩

/-- C4 (amended): for every input shorter than 11 bytes, `parse_message`
raises an exception — `ValueError` from `MessageType(data[:1])` when the
type byte is missing or invalid, or `struct.error` from
`struct.unpack('d', ...)` when fewer than 8 timestamp bytes remain — and
never a dedicated `IncompleteHeader` error, which does not exist in the
code. -/
theorem claim4_short_input_raises (data : List Nat) (h : data.length < 11) :
    parse_message data = .error .valueError ∨
    parse_message data = .error .structError := by
  match data with
  | [] => exact Or.inl rfl
  | tb :: rest1 =>
    by_cases hv : isValidTypeByte tb = true
    · refine Or.inr ?_
      have h10 : rest1.length < 10 := by
        simp only [List.length_cons] at h
        omega
      have hlen : ¬ (((rest1.drop 2).take 8).length = 8) := by
        simp only [List.length_take, List.length_drop]
        omega
      simp only [parse_message, hv, if_true]
      rw [if_neg hlen]
    · exact Or.inl (by simp [parse_message, hv])

/-- Witness for C4's amended theorem at the empty input. -/
theorem claim4_short_input_raises_witness :
    ([] : List Nat).length < 11 ∧
    (parse_message [] = .error .valueError ∨
      parse_message [] = .error .structError) :=
  ⟨by decide, claim4_short_input_raises [] (by decide)⟩

/-- C5 (code evaluation): for *every* incoming message — in particular a
well-formed `REQ_CREATE_USER` request with fewer than two fields — the
server's create-user handler raises `TypeError` instead of answering with
a malformed-data error: `get_next_field()` hands back generator objects
without raising `IndexError`, and `create_user`'s parameter-type
enforcement rejects them. The claim's single-malformed-data-response
behavior is unreachable. -/
theorem claim5_user_create_type_error (accountExists : List Nat → Bool)
    (addUserOk : Bool) (m : Message) :
    req_user_create accountExists addUserOk m = .error .typeError := rfl

/-- C6: renaming a registry key. If the new key is already present the
registry is returned unchanged with failure; if it is fresh, the call
succeeds, the old key is gone, the new key holds the old value, and the
entries under every other key are untouched (stated as: the final
registry restricted to keys other than `oldKey` and `newKey` equals the
original so restricted). -/
theorem claim6_change_dict_key_rename {K V : Type} [DecidableEq K]
    (d : List (K × V)) (oldKey newKey : K) (v : V)
    (_hnd : (d.map Prod.fst).Nodup)
    (hold : dictLookup oldKey d = some v) :
    (newKey ∈ d.map Prod.fst → change_dict_key oldKey newKey d = .ok (false, d)) ∧
    (newKey ∉ d.map Prod.fst →
      change_dict_key oldKey newKey d =
        .ok (true, d.filter (fun p => decide (p.1 ≠ oldKey)) ++ [(newKey, v)]) ∧
      dictLookup oldKey (d.filter (fun p => decide (p.1 ≠ oldKey)) ++ [(newKey, v)]) = none ∧
      dictLookup newKey (d.filter (fun p => decide (p.1 ≠ oldKey)) ++ [(newKey, v)]) = some v ∧
      (d.filter (fun p => decide (p.1 ≠ oldKey)) ++ [(newKey, v)]).filter
          (fun p => decide (p.1 ≠ oldKey) && decide (p.1 ≠ newKey)) =
        d.filter (fun p => decide (p.1 ≠ oldKey) && decide (p.1 ≠ newKey))) := by
  have hold' : (d.find? (fun p => decide (p.1 = oldKey))).map Prod.snd = some v := hold
  constructor
  · intro hmem
    simp [change_dict_key, hmem]
  · intro hmem
    have holdmem : oldKey ∈ d.map Prod.fst := by
      obtain ⟨p, hp⟩ : ∃ p, d.find? (fun p => decide (p.1 = oldKey)) = some p := by
        cases hfind : d.find? (fun p => decide (p.1 = oldKey)) with
        | none => rw [hfind] at hold'; simp at hold'
        | some p => exact ⟨p, rfl⟩
      have hpmem := List.mem_of_find?_eq_some hp
      have hpkey : p.1 = oldKey := by simpa using List.find?_some hp
      exact hpkey ▸ List.mem_map_of_mem Prod.fst hpmem
    have hne : newKey ≠ oldKey := fun he => hmem (he ▸ holdmem)
    refine ⟨?_, ?_, ?_, ?_⟩
    · simp [change_dict_key, hmem, hold']
    · simp only [dictLookup, List.find?_append]
      have h1 : (d.filter (fun p => decide (p.1 ≠ oldKey))).find?
          (fun p => decide (p.1 = oldKey)) = none := by
        rw [List.find?_eq_none]
        intro x hx
        have hx2 := (List.mem_filter.mp hx).2
        simp at hx2 ⊢
        exact hx2
      have h2 : ([(newKey, v)]).find? (fun p => decide (p.1 = oldKey)) = none := by
        simp [List.find?, hne]
      rw [h1, h2]
      rfl
    · simp only [dictLookup, List.find?_append]
      have h1 : (d.filter (fun p => decide (p.1 ≠ oldKey))).find?
          (fun p => decide (p.1 = newKey)) = none := by
        rw [List.find?_eq_none]
        intro x hx
        have hxd := (List.mem_filter.mp hx).1
        simp only [decide_eq_true_eq]
        intro hpx
        exact hmem (hpx ▸ List.mem_map_of_mem Prod.fst hxd)
      rw [h1]
      simp [List.find?]
    · rw [List.filter_append]
      have h2 : ([(newKey, v)]).filter
          (fun p => decide (p.1 ≠ oldKey) && decide (p.1 ≠ newKey)) = [] := by
        simp
      rw [h2, List.append_nil, List.filter_filter]
      apply List.filter_congr
      intro x _
      by_cases h1 : x.1 = oldKey <;> by_cases hx2 : x.1 = newKey <;> simp [h1, hx2]

/-- Witness for C6 on a concrete two-entry registry, exercising both the
collision branch (rename 1 → 2 fails, registry unchanged) and the fresh
branch (rename 1 → 3 succeeds, key 1 gone, key 3 holds 10). -/
theorem claim6_change_dict_key_rename_witness :
    change_dict_key 1 2 [(1, 10), (2, 20)] = .ok (false, [(1, 10), (2, 20)]) ∧
    change_dict_key 1 3 [(1, 10), (2, 20)] = .ok (true, [(2, 20), (3, 10)]) ∧
    dictLookup 1 [(2, 20), (3, 10)] = none ∧
    dictLookup 3 [(2, 20), (3, 10)] = some 10 := by
  have hcol := (claim6_change_dict_key_rename [(1, 10), (2, 20)] 1 2 10
    (by decide) (by rfl)).1 (by decide)
  have hfresh := (claim6_change_dict_key_rename [(1, 10), (2, 20)] 1 3 10
    (by decide) (by rfl)).2 (by decide)
  refine ⟨hcol, ?_, by rfl, by rfl⟩
  have h := hfresh.1
  simpa using h

/-- C7 (code evaluation): for *every* whisper request and every registry
state, `_req_whisper` raises an uncaught `KeyError`: the field values are
generator objects, so `self._conns[user]` misses (and even a string
lookup of an absent target would raise `KeyError`, which the
`except socket.error` clause cannot catch). Neither the user-offline
error nor the whisper-notice/success pair is ever sent. -/
theorem claim7_whisper_key_error (conns : List (List Nat)) (m : Message) :
    req_whisper conns m = .error .keyError := rfl

/-- C8 (counterexample): a malformed inbound message on which the client
sends nothing at all — `_process_message_queue` skips it with a bare
`continue` — rather than the malformed-data error the claim requires. -/
theorem claim8_cex_malformed_silent :
    client_process_message ⟨REQ_SAY, 1, [], [], true⟩ = .ok [] ∧
    client_process_message ⟨REQ_SAY, 1, [], [], true⟩ ≠ .ok [ERR_MALFORMED_DATA] := by
  refine ⟨rfl, ?_⟩
  intro h
  simp [client_process_message] at h

/-- C8 (amended): the client silently discards every malformed inbound
message: it sends nothing back to the server and reads none of the
message's fields. -/
theorem claim8_malformed_ignored (m : Message) (h : m.malformed = true) :
    client_process_message m = .ok [] := by
  simp [client_process_message, h]

/-- Witness for C8's amended theorem. -/
theorem claim8_malformed_ignored_witness :
    (Message.mk REQ_SAY 1 [] [] true).malformed = true ∧
    client_process_message ⟨REQ_SAY, 1, [], [], true⟩ = .ok [] :=
  ⟨rfl, claim8_malformed_ignored ⟨REQ_SAY, 1, [], [], true⟩ rfl⟩

/-- C1 (counterexample): the round-trip law fails on the single field
"é" (code point 233) — non-empty UTF-8 text whose encoded total stays far
below 65535. Python's `len` counts 1 code point, so the declared
`total_length` is 16, but the payload carries the 2 UTF-8 bytes
`C3 A9`, so the 17-byte frame overruns its own declared length and the
parser flags it malformed (countdown ends at -1). Type and fields do
round-trip; `is_malformed` does not. -/
theorem claim1_cex_nonascii :
    (∀ f ∈ [[233]], f ≠ []) ∧ totalLength [[233]] ≤ 65535 ∧
    roundTrip REQ_SAY [[233]] 0 (List.replicate 8 0) =
      .ok ⟨132, -1, [0, 0], [[233]], true⟩ ∧
    (Message.mk 132 (-1) [0, 0] [[233]] true).malformed = true := by
  exact ⟨by decide, by decide, rfl, rfl⟩

/-- C1 (amended): the round-trip law restricted as the counterexample
forces — every field non-empty and made of non-NUL ASCII code points (so
the code-point count Python's `len` reports equals the UTF-8 byte count
and no field byte collides with the null terminator), the padded total
within the 16-bit length field, and the counter in its invariant range:
decoding the built frame returns exactly the input type and field list
with `is_malformed` false. -/
theorem claim1_roundtrip_ascii (t : Nat) (args : List (List Nat)) (counter : Nat)
    (timeBytes : List Nat) (ht : isValidTypeByte t = true)
    (htb : timeBytes.length = 8)
    (hargs : ∀ f ∈ args, f ≠ [] ∧ ∀ c ∈ f, 0 < c ∧ c < 128)
    (hcounter : counter < 65536)
    (htotal : totalLength args ≤ 65535) :
    roundTrip t args counter timeBytes =
      .ok ⟨t, 0, toBytes2BE counter, args, false⟩ := by
  have hasc : ∀ f ∈ args, ∀ c ∈ f, c < 128 := fun f hf c hc => ((hargs f hf).2 c hc).2
  have hne : ∀ f ∈ args, f ≠ [] := fun f hf => (hargs f hf).1
  have h1 : ¬ (65536 ≤ totalLength args) := by omega
  have h2 : ¬ (65536 ≤ counter) := by omega
  have hbuild : build_message t args counter timeBytes =
      .ok (t :: (toBytes2BE (totalLength args) ++ (timeBytes ++ (toBytes2BE counter ++
        (payloadBytes args ++ List.replicate (paddingOf args) 0)))), nextCounter counter) := by
    simp only [build_message, if_neg h1, if_neg h2, encodeArgs_ascii args hasc]
  simp only [roundTrip, hbuild]
  rw [parse_message_structured t _ timeBytes _ _ ht (by simp [toBytes2BE]) htb
    (by simp [toBytes2BE])]
  rw [parseLoop_fields args [] _ (paddingOf args) hargs]
  have hzero : (natFromBytesBE (toBytes2BE (totalLength args)) : Int) -
      (HEADER_LEN : Int) - ((payloadBytes args).length : Int) -
      ((paddingOf args) : Int) = 0 := by
    rw [natFromBytesBE_toBytes2BE]
    have hu := unpaddedLength_eq args hne
    have ht13 : HEADER_LEN = 13 := rfl
    rw [ht13] at hu
    have htot : totalLength args = unpaddedLength args + paddingOf args := rfl
    rw [ht13]
    push_cast
    omega
  rw [hzero]
  simp

/-- Witness for C1's amended round-trip theorem on the field "hi". -/
theorem claim1_roundtrip_ascii_witness :
    isValidTypeByte REQ_SAY = true ∧
    (List.replicate 8 (0 : Nat)).length = 8 ∧
    (∀ f ∈ [[104, 105]], f ≠ [] ∧ ∀ c ∈ f, 0 < c ∧ c < 128) ∧
    0 < 65536 ∧ totalLength [[104, 105]] ≤ 65535 ∧
    roundTrip REQ_SAY [[104, 105]] 0 (List.replicate 8 0) =
      .ok ⟨REQ_SAY, 0, toBytes2BE 0, [[104, 105]], false⟩ :=
  ⟨by decide, by decide, by decide, by decide, by decide,
    claim1_roundtrip_ascii REQ_SAY [[104, 105]] 0 (List.replicate 8 0)
      (by decide) (by decide) (by decide) (by decide) (by decide)⟩

/-- C3 (counterexample): encoding the single non-empty field "é" yields a
17-byte frame — not a multiple of 4. The padding is computed from the
code-point count (unpadded 15, padding 1, declared 16) while the payload
carries one extra UTF-8 byte. -/
theorem claim3_cex_nonascii_frame_length :
    build_message REQ_SAY [[233]] 0 (List.replicate 8 0) =
      .ok ([132, 0, 16, 0, 0, 0, 0, 0, 0, 0, 0, 0, 0, 195, 169, 0, 0], 1) ∧
    ([132, 0, 16, 0, 0, 0, 0, 0, 0, 0, 0, 0, 0, 195, 169, 0, 0] : List Nat).length % 4
      = 1 := by
  exact ⟨rfl, by decide⟩

/-- C3 (amended): restricted to fields that are non-empty with every code
point below 128 (one UTF-8 byte per code point, so the length arithmetic
and the payload agree), the encoded frame length equals the declared
`totalLength`: a multiple of 4 strictly greater than the unpadded length
— between 1 and 4 padding null bytes are appended, never zero. -/
theorem claim3_frame_length_padded (t : Nat) (args : List (List Nat))
    (counter : Nat) (timeBytes : List Nat)
    (htb : timeBytes.length = 8)
    (hargs : ∀ f ∈ args, f ≠ [] ∧ ∀ c ∈ f, c < 128)
    (hcounter : counter < 65536)
    (htotal : totalLength args ≤ 65535) :
    Except.map (fun p => p.1.length) (build_message t args counter timeBytes) =
      .ok (totalLength args) ∧
    totalLength args % 4 = 0 ∧
    unpaddedLength args < totalLength args := by
  have hasc : ∀ f ∈ args, ∀ c ∈ f, c < 128 := fun f hf => (hargs f hf).2
  have hne : ∀ f ∈ args, f ≠ [] := fun f hf => (hargs f hf).1
  have h1 : ¬ (65536 ≤ totalLength args) := by omega
  have h2 : ¬ (65536 ≤ counter) := by omega
  have hbuild : build_message t args counter timeBytes =
      .ok (t :: (toBytes2BE (totalLength args) ++ (timeBytes ++ (toBytes2BE counter ++
        (payloadBytes args ++ List.replicate (paddingOf args) 0)))), nextCounter counter) := by
    simp only [build_message, if_neg h1, if_neg h2, encodeArgs_ascii args hasc]
  have hu := unpaddedLength_eq args hne
  have ht13 : HEADER_LEN = 13 := rfl
  rw [ht13] at hu
  have htot : totalLength args = unpaddedLength args + paddingOf args := rfl
  have hpad : paddingOf args = 4 - unpaddedLength args % 4 := rfl
  refine ⟨?_, by omega, by omega⟩
  rw [hbuild]
  simp [Except.map, toBytes2BE, List.length_append, htb]
  omega

/-- Witness for C3's amended padding theorem on the field "hi". -/
theorem claim3_frame_length_padded_witness :
    (List.replicate 8 (0 : Nat)).length = 8 ∧
    (∀ f ∈ [[104, 105]], f ≠ [] ∧ ∀ c ∈ f, c < 128) ∧
    0 < 65536 ∧ totalLength [[104, 105]] ≤ 65535 ∧
    (Except.map (fun p => p.1.length)
        (build_message REQ_SAY [[104, 105]] 0 (List.replicate 8 0)) =
      .ok (totalLength [[104, 105]]) ∧
    totalLength [[104, 105]] % 4 = 0 ∧
    unpaddedLength [[104, 105]] < totalLength [[104, 105]]) :=
  ⟨by decide, by decide, by decide, by decide,
    claim3_frame_length_padded REQ_SAY [[104, 105]] 0 (List.replicate 8 0)
      (by decide) (by decide) (by decide) (by decide)⟩

/-- C10: every `Message` that `parse_message` returns has no empty-string
field: runs of consecutive null bytes — trailing padding included — never
produce one, because the scanning loop only appends the current run as a
field when it is non-empty, and a non-empty byte run decodes to a
non-empty string. -/
theorem claim10_no_empty_fields (data : List Nat) (m : Message)
    (h : parse_message data = .ok m) : ([] : List Nat) ∉ m.fields := by
  cases data with
  | nil => simp [parse_message] at h
  | cons tb rest1 =>
    simp only [parse_message] at h
    by_cases hv : isValidTypeByte tb = true
    · rw [if_pos (by simp [hv])] at h
      by_cases hlen : ((rest1.drop 2).take 8).length = 8
      · rw [if_pos hlen] at h
        cases hp : parseLoop (((rest1.drop 2).drop 8).drop 2) [] []
            ((natFromBytesBE (rest1.take 2) : Int) - (HEADER_LEN : Int)) with
        | error e => rw [hp] at h; simp at h
        | ok res =>
          obtain ⟨fields, s, bl⟩ := res
          rw [hp] at h
          simp only [Except.ok.injEq] at h
          intro hmem
          rw [← h] at hmem
          exact (parseLoop_fields_ne_nil (((rest1.drop 2).drop 8).drop 2) [] []
            ((natFromBytesBE (rest1.take 2) : Int) - (HEADER_LEN : Int))
            (fields, s, bl) hp (by simp) [] hmem) rfl
      · rw [if_neg hlen] at h
        simp at h
    · rw [if_neg (by simp [hv])] at h
      simp at h

/-- Witness for C10 on a parsed "hi" frame with trailing padding nulls. -/
theorem claim10_no_empty_fields_witness :
    parse_message [132, 0, 20, 0, 0, 0, 0, 0, 0, 0, 0, 0, 0, 104, 105, 0, 0, 0, 0, 0] =
      .ok ⟨132, 0, [0, 0], [[104, 105]], false⟩ ∧
    ([] : List Nat) ∉ (Message.mk 132 0 [0, 0] [[104, 105]] false).fields :=
  ⟨by rfl, claim10_no_empty_fields
    [132, 0, 20, 0, 0, 0, 0, 0, 0, 0, 0, 0, 0, 104, 105, 0, 0, 0, 0, 0]
    ⟨132, 0, [0, 0], [[104, 105]], false⟩ (by rfl)⟩

/-- C9: starting from the initial singleton state, the id stamped by the
(k+1)-st encode call is `nthCounter k = k % 65536` — so 65537 consecutive
encodes stamp `0, 1, ..., 65535, 0` — and one build call from counter
state `nthCounter k` writes exactly those two big-endian bytes at header
offsets 11-12 and steps the counter to `nthCounter (k + 1)`. -/
theorem claim9_sequence_counter_wraps (k : Nat) :
    nthCounter k = k % 65536 ∧
    ∃ frame, build_message REQ_SAY [[104, 105]] (nthCounter k) (List.replicate 8 0) =
        .ok (frame, nthCounter (k + 1)) ∧
      seqIdBytes frame = toBytes2BE (k % 65536) := by
  have hk := nthCounter_eq_mod k
  have hck : nthCounter k < 65536 := by rw [hk]; omega
  refine ⟨hk, _, build_small_frame (nthCounter k) hck, ?_⟩
  rw [hk]
  simp [seqIdBytes, toBytes2BE, List.replicate]

end ZModule
